import Mathlib

/-!
Verification of the CruxExtractor pipeline (src/index.js).

The embedding is a shallow one: each method of the CruxExtractor class is
translated into a pure Lean function, and the external collaborators of the
script (URL syntactic validation, UrlFetchApp, JSON.parse on response bodies,
SpreadsheetApp, the clock and the execution id generator) are passed in as
explicit environment parameters.  Spreadsheet tabs are modelled as lists of
rows; a write through getRange(...).setValues(...) is modelled by setRows,
which overwrites a 1-indexed row range, so append-only behaviour is proved,
not assumed.
-/

/-- A scalar spreadsheet cell or JSON leaf value: a string, a number, or the
JS undefined value. -/
inductive Cell where
  | str (s : String)
  | num (q : Rat)
  | undef
deriving DecidableEq, Repr

/-- The sentinel written for any absent scalar value ("-" in the source). -/
def dash : Cell := Cell.str "-"

/-- A spreadsheet row. -/
abbrev Row := List Cell

/-! ## Configuration constants (CruxExtractor.CONFIG) -/

/-- CONFIG.SLEEP_DURATION_MS. -/
def SLEEP_DURATION_MS : Nat := 400

/-- CONFIG.HTTP_STATUS_OK. -/
def HTTP_STATUS_OK : Nat := 200

/-- CONFIG.COLUMN_COUNT. -/
def COLUMN_COUNT : Nat := 19

/-- CONFIG.HISTORY_COLUMN_COUNT. -/
def HISTORY_COLUMN_COUNT : Nat := 8

/-! ## String trimming (String.prototype.trim in the constructor) -/

/-- Drops leading whitespace characters from a character list. -/
def trimL (l : List Char) : List Char := l.dropWhile Char.isWhitespace

/-- Drops trailing whitespace characters from a character list. -/
def trimR (l : List Char) : List Char := ((l.reverse).dropWhile Char.isWhitespace).reverse

/-- Model of the JS String.prototype.trim: removes leading and trailing
whitespace. -/
def jsTrim (s : String) : String := String.mk (trimR (trimL s.data))

/-- Model of JS string truthiness: a string is truthy exactly when it is
non-empty. -/
def jsTruthy (s : String) : Bool := s != ""

/-! ## Request planner (buildRequestUrls) -/

/-- A request descriptor: the data carried by the JSON body of one planned
request (the method, contentType and muteHttpExceptions fields of the request
object are constants and carry no information). -/
structure RequestDescriptor where
  url : String
  formFactor : String
deriving DecidableEq, Repr

/-- The fixed list of accepted form factor tokens (validFormFactors in
buildRequestUrls). -/
def validFormFactors : List String := ["PHONE", "DESKTOP", "ALL_FORM_FACTORS"]

/-- The body of the inner loop of buildRequestUrls: skip a form factor token
that is not in the accepted set, otherwise push one request descriptor. -/
def planFactor (currentUrl : String) (acc : List RequestDescriptor) (factor : String) :
    List RequestDescriptor :=
  if !(validFormFactors.contains factor) then acc
  else acc ++ [⟨currentUrl, factor⟩]

/-- The body of the outer loop of buildRequestUrls: skip an invalid URL,
otherwise run the inner loop over all form factor tokens. -/
def planUrl (isValidUrl : String → Bool) (formFactor : List String)
    (acc : List RequestDescriptor) (currentUrl : String) : List RequestDescriptor :=
  if !(isValidUrl currentUrl) then acc
  else formFactor.foldl (planFactor currentUrl) acc

/-- buildRequestUrls: builds the request list by the two nested loops, then
throws when no valid URL and form factor combination was produced.  The
isValidUrl parameter abstracts the platform URL parser used by the
isValidUrl method (true exactly for absolute http or https URLs). -/
def buildRequestUrls (isValidUrl : String → Bool) (urls formFactor : List String) :
    Except String (List RequestDescriptor) :=
  if (urls.foldl (planUrl isValidUrl formFactor) []).length = 0 then
    Except.error "No valid URL/form factor combinations to process"
  else Except.ok (urls.foldl (planUrl isValidUrl formFactor) [])

/-- Written from the specification wording for comparison with
buildRequestUrls: the ordered cross product of (url, formFactor) pairs in
URL-major order, keeping only valid URLs and accepted form factor tokens. -/
def plannerSpec (isValidUrl : String → Bool) (urls formFactor : List String) :
    List RequestDescriptor :=
  (urls.filter isValidUrl).flatMap
    (fun u => (formFactor.filter (fun f => validFormFactors.contains f)).map
      (fun f => ⟨u, f⟩))

/-! ## Response payload model

A successfully parsed response body, as far as normalizeData inspects it.
Every field that the source reads through optional chaining or a falsiness
check is an Option; a JSON value that is absent or null is modelled as
none. -/

/-- One histogram bucket entry ({ density }); the density field itself may be
absent. -/
structure HistEntry where
  density : Option Cell
deriving DecidableEq, Repr

/-- The percentiles object of one metric; p75 may be absent. -/
structure Percentiles where
  p75 : Option Cell
deriving DecidableEq, Repr

/-- One metric object: an optional histogram array and an optional
percentiles object. -/
structure Metric where
  histogram : Option (List HistEntry)
  percentiles : Option Percentiles
deriving DecidableEq, Repr

/-- The record.key object: formFactor may be absent (aggregated data), and
url may be absent in a malformed payload. -/
structure RecordKey where
  formFactor : Option String
  url : Option String
deriving DecidableEq, Repr

/-- The record.metrics object with the four metrics the normalizer reads. -/
structure Metrics where
  largest_contentful_paint : Option Metric
  first_input_delay : Option Metric
  cumulative_layout_shift : Option Metric
  first_contentful_paint : Option Metric
deriving DecidableEq, Repr

/-- The record object of a response payload. -/
structure CruxRecord where
  key : Option RecordKey
  metrics : Option Metrics
deriving DecidableEq, Repr

/-- A parsed response payload (response.record may be absent). -/
structure Payload where
  record : Option CruxRecord
deriving DecidableEq, Repr

/-! ## Fetcher (fetchData) -/

/-- An execution record as pushed by fetchData.  responseCode is some code
for an HTTP response and none for the "-" sentinel written on a transport
error. -/
structure ExecutionRec where
  url : String
  formFactor : String
  status : String
  responseCode : Option Nat
  errorMessage : String
  normalized : String
deriving DecidableEq, Repr

/-- The outcome of one UrlFetchApp.fetch call, as observed by fetchData:
either the fetch itself throws, or it yields an HTTP response with a status
code, a body text, and the result of JSON.parse on that body text. -/
inductive FetchResult where
  | fetchError (msg : String)
  | response (code : Nat) (text : String) (parsed : Except String Payload)
deriving Repr

/-- An event of the fetch loop, used to state its sequential structure: one
request issued for a descriptor, or one Utilities.sleep call. -/
inductive Event where
  | request (d : RequestDescriptor)
  | sleep (ms : Nat)
deriving DecidableEq, Repr

/-- Recognizes a request event. -/
def isRequestEvent : Event → Bool
  | Event.request _ => true
  | Event.sleep _ => false

/-- Recognizes a sleep event. -/
def isSleepEvent : Event → Bool
  | Event.request _ => false
  | Event.sleep _ => true

/-- A fetch outcome classifies as a success exactly when the HTTP status is
200 and the body parses as JSON. -/
def fetchSuccess : FetchResult → Bool
  | FetchResult.response code _ (Except.ok _) => code == HTTP_STATUS_OK
  | _ => false

/-- The body of the fetch loop for one descriptor: classify the outcome,
build the execution record, and return the parsed payload on success.
Mirrors the try/catch structure of fetchData lines 200-247. -/
def processRequest (fr : FetchResult) (d : RequestDescriptor) :
    ExecutionRec × Option Payload :=
  match fr with
  | FetchResult.fetchError msg =>
      ({ url := d.url, formFactor := d.formFactor, status := "FAILED",
         responseCode := none, errorMessage := "Fetch error: " ++ msg,
         normalized := "NO" }, none)
  | FetchResult.response code text parsed =>
      if code ≠ HTTP_STATUS_OK then
        ({ url := d.url, formFactor := d.formFactor, status := "FAILED",
           responseCode := some code,
           errorMessage := "Non-200 response: " ++ text,
           normalized := "NO" }, none)
      else
        match parsed with
        | Except.error m =>
            ({ url := d.url, formFactor := d.formFactor, status := "FAILED",
               responseCode := some code,
               errorMessage := "JSON parse error: " ++ m,
               normalized := "NO" }, none)
        | Except.ok p =>
            ({ url := d.url, formFactor := d.formFactor, status := "SUCCESS",
               responseCode := some code, errorMessage := "-",
               normalized := "NO" }, some p)

/-- The result of the fetch stage: the successfully parsed payloads
(filteredResponse), the execution records, and the trace of requests and
sleeps in the order they happen. -/
structure FetchOut where
  payloads : List Payload
  records : List ExecutionRec
  trace : List Event
deriving Repr

/-- The fetch loop of fetchData: one request per descriptor, strictly in
order, with a sleep after every request except the last.  The index argument
numbers the fetch calls, so the environment can answer each call
independently. -/
def fetchLoop (fetch : Nat → FetchResult) : Nat → List RequestDescriptor → FetchOut
  | _, [] => ⟨[], [], []⟩
  | i, d :: ds =>
      let step := processRequest (fetch i) d
      let rest := fetchLoop fetch (i + 1) ds
      { payloads := step.2.toList ++ rest.payloads,
        records := step.1 :: rest.records,
        trace := Event.request d ::
          ((if ds.isEmpty then [] else [Event.sleep SLEEP_DURATION_MS]) ++ rest.trace) }

/-- fetchData: throws when no requests were built, otherwise runs the fetch
loop over all request descriptors. -/
def fetchData (fetch : Nat → FetchResult) (requests : List RequestDescriptor) :
    Except String FetchOut :=
  if requests.isEmpty then
    Except.error "No requests to fetch. Call buildRequestUrls() first."
  else Except.ok (fetchLoop fetch 0 requests)

/-! ## Normalizer (normalizeData) -/

/-- Reads bucket i of a histogram list the way the source does with
optional chaining: absent entry or absent density yields the sentinel. -/
def histCell (hist : List HistEntry) (i : Nat) : Cell :=
  match hist[i]? with
  | none => dash
  | some e => e.density.getD dash

/-- extractMetric: an absent metric object yields four sentinels; otherwise
the three bucket densities (with histogram defaulting to the empty array)
and the p75 percentile, each independently defaulting to the sentinel. -/
def extractMetric (metric : Option Metric) : List Cell :=
  match metric with
  | none => [dash, dash, dash, dash]
  | some m =>
      let hist := m.histogram.getD []
      [histCell hist 0, histCell hist 1, histCell hist 2,
       match m.percentiles with
       | none => dash
       | some ps => ps.p75.getD dash]

/-- Model of the JS expression (key.formFactor || "AGGREGATED"): an absent
or empty form factor string falls back to the literal. -/
def keyFormFactor (ff : Option String) : String :=
  match ff with
  | none => "AGGREGATED"
  | some s => if s = "" then "AGGREGATED" else s

/-- Model of pushing key.url into the row: an absent url field yields the JS
undefined value. -/
def urlCell (u : Option String) : Cell :=
  match u with
  | none => Cell.undef
  | some s => Cell.str s

/-- The per-payload step of normalizeData: none when the payload lacks
record.key or record.metrics (the payload is skipped), otherwise the
19-cell row together with the url and form factor used to locate the
matching execution record. -/
def acceptPayload (timeStamp : String) (p : Payload) :
    Option (Row × Option String × String) :=
  match p.record with
  | none => none
  | some rec =>
      match rec.key, rec.metrics with
      | some key, some metrics =>
          let ff := keyFormFactor key.formFactor
          let lcp := extractMetric metrics.largest_contentful_paint
          let fid := extractMetric metrics.first_input_delay
          let cls := extractMetric metrics.cumulative_layout_shift
          let fcp := extractMetric metrics.first_contentful_paint
          some ([Cell.str timeStamp, Cell.str ff, urlCell key.url]
                  ++ lcp ++ fid ++ cls ++ fcp,
                key.url, ff)
      | _, _ => none

/-- The findIndex predicate of normalizeData lines 336-341: the record
matches when its url equals the row url, its form factor equals the row
form factor, and its status is SUCCESS.  The row url is an Option because
key.url may be absent (JS undefined never equals a string). -/
def recMatches (r : ExecutionRec) (u : Option String) (ff : String) : Bool :=
  u == some r.url && r.formFactor == ff && r.status == "SUCCESS"

/-- Flips the normalized field of the first matching execution record to
YES, as findIndex followed by the index assignment does. -/
def markNormalized : List ExecutionRec → Option String → String → List ExecutionRec
  | [], _, _ => []
  | r :: rs, u, ff =>
      if recMatches r u ff then { r with normalized := "YES" } :: rs
      else r :: markNormalized rs u ff

/-- One iteration of the normalizeData loop: a skipped payload leaves the
accumulator unchanged; an accepted one appends its row and marks the
matching execution record. -/
def normStep (timeStamp : String) (acc : List Row × List ExecutionRec) (p : Payload) :
    List Row × List ExecutionRec :=
  match acceptPayload timeStamp p with
  | none => acc
  | some (row, u, ff) => (acc.1 ++ [row], markNormalized acc.2 u ff)

/-- normalizeData: throws when there is nothing to normalize or when every
payload was skipped; otherwise returns the rows and the updated execution
records.  The timestamp is computed once per pass by the caller. -/
def normalizeData (timeStamp : String) (payloads : List Payload)
    (records : List ExecutionRec) :
    Except String (List Row × List ExecutionRec) :=
  if payloads.isEmpty then
    Except.error "No responses to normalize. Call fetchData() first."
  else if (payloads.foldl (normStep timeStamp) ([], records)).1.isEmpty then
    Except.error "All responses failed normalization"
  else Except.ok (payloads.foldl (normStep timeStamp) ([], records))

/-! ## Sink writer (addToSpreadsheet, getExecutionHistorySheet,
logExecutionHistory) -/

/-- The 19-column header row written when the data tab is created. -/
def dataHeaders : Row :=
  [Cell.str "Date", Cell.str "Platform", Cell.str "URL",
   Cell.str "LCP (Good)", Cell.str "LCP (Needs Improvement)",
   Cell.str "LCP (Poor)", Cell.str "LCP (75th Percentile)",
   Cell.str "FID (Good)", Cell.str "FID (Needs Improvement)",
   Cell.str "FID (Poor)", Cell.str "FID (75th Percentile)",
   Cell.str "CLS (Good)", Cell.str "CLS (Needs Improvement)",
   Cell.str "CLS (Poor)", Cell.str "CLS (75th Percentile)",
   Cell.str "FCP (Good)", Cell.str "FCP (Needs Improvement)",
   Cell.str "FCP (Poor)", Cell.str "FCP (75th Percentile)"]

/-- The 8-column header row of the execution history tab. -/
def historyHeaders : Row :=
  [Cell.str "Execution ID", Cell.str "Timestamp", Cell.str "URL",
   Cell.str "Form Factor", Cell.str "Status", Cell.str "Response Code",
   Cell.str "Error Message", Cell.str "Normalized"]

/-- Model of getRange(startRow, 1, rows.length, ...).setValues(rows) on a
sheet whose populated rows are listed in order: overwrites the 1-indexed
range starting at startRow, padding with empty rows when startRow lies past
the current end.  getLastRow of the sheet model is its list length. -/
def setRows (sheetRows : List Row) (startRow : Nat) (rows : List Row) : List Row :=
  (sheetRows.take (startRow - 1)
      ++ List.replicate (startRow - 1 - sheetRows.length) ([] : Row))
    ++ rows ++ sheetRows.drop (startRow - 1 + rows.length)

/-- The mutable external state an extractor run touches: the data tab and
the history tab (none when the tab does not exist yet), and two fault
switches modelling a spreadsheet service failure during the data write and
during the audit flush. -/
structure World where
  dataSheet : Option (List Row)
  historySheet : Option (List Row)
  dataWriteFails : Bool
  historyWriteFails : Bool
deriving DecidableEq, Repr

/-- addToSpreadsheet: throws when there are no normalized rows; creates the
data tab with its header row when absent; then writes the rows starting at
getLastRow + 1.  A failing spreadsheet service is modelled as an atomic
failure that leaves the tab unchanged. -/
def addToSpreadsheet (w : World) (normalizedResponse : List Row) :
    Except String World :=
  if normalizedResponse.isEmpty then
    Except.error "No normalized data to write. Call normalizeData() first."
  else if w.dataWriteFails then Except.error "addToSpreadsheet failed"
  else
    let sheet := match w.dataSheet with
      | none => setRows [] 1 [dataHeaders]
      | some s => s
    Except.ok { w with dataSheet := some (setRows sheet (sheet.length + 1) normalizedResponse) }

/-- Builds one audit row from an execution record, with the JS falsiness
defaulting of logExecutionHistory lines 538-547 (note that a response code
of 0 is falsy and is logged as the sentinel). -/
def auditRow (executionId timestamp : String) (r : ExecutionRec) : Row :=
  [Cell.str executionId, Cell.str timestamp,
   if r.url = "" then dash else Cell.str r.url,
   if r.formFactor = "" then dash else Cell.str r.formFactor,
   if r.status = "" then Cell.str "UNKNOWN" else Cell.str r.status,
   (match r.responseCode with
    | none => dash
    | some c => if c = 0 then dash else Cell.num c),
   if r.errorMessage = "" then dash else Cell.str r.errorMessage,
   if r.normalized = "" then Cell.str "NO" else Cell.str r.normalized]

/-- logExecutionHistory: a no-op on an empty record list; otherwise resolves
or creates the history tab and appends one audit row per record at
getLastRow + 1.  Every failure inside is caught and logged, never rethrown,
so a failing history write leaves the world unchanged and returns
normally. -/
def logExecutionHistory (executionId timestamp : String) (w : World)
    (records : List ExecutionRec) : World :=
  if records.isEmpty then w
  else if w.historyWriteFails then w
  else
    let sheet := match w.historySheet with
      | none => setRows [] 1 [historyHeaders]
      | some s => s
    let rows := records.map (auditRow executionId timestamp)
    { w with historySheet := some (setRows sheet (sheet.length + 1) rows) }

/-! ## Constructor (CruxExtractor) -/

/-- The configuration object passed to the CruxExtractor constructor.  Only
string-typed inputs are modelled, so the typeof checks of the source hold by
construction. -/
structure ExtractorConfig where
  urls : List String
  spreadsheetId : String
  apiKey : String
  formFactor : List String
  cruxUrl : String
  sheetTabName : String
deriving DecidableEq, Repr

/-- The state stored on a constructed CruxExtractor instance. -/
structure CruxExtractor where
  urls : List String
  spreadsheetId : String
  apiKey : String
  formFactor : List String
  cruxUrl : String
  sheetTabName : String
deriving DecidableEq, Repr

/-- The CruxExtractor constructor: the validation chain in source order,
then the stored fields, each input trimmed, and the endpoint URL built by
appending the trimmed API key to the base URL. -/
def mkCruxExtractor (c : ExtractorConfig) : Except String CruxExtractor :=
  if c.urls.isEmpty then
    Except.error "Crux Extractor: 'urls' must be a non-empty array"
  else if !(c.urls.all (fun u => jsTruthy (jsTrim u))) then
    Except.error "Crux Extractor: All URLs must be non-empty strings"
  else if !(jsTruthy (jsTrim c.spreadsheetId)) then
    Except.error "Crux Extractor: 'spreadsheetId' must be a non-empty string"
  else if !(jsTruthy (jsTrim c.apiKey)) then
    Except.error "Crux Extractor: 'apiKey' must be a non-empty string"
  else if c.formFactor.isEmpty then
    Except.error "Crux Extractor: 'formFactor' must be a non-empty array"
  else if !(c.formFactor.all (fun f => jsTruthy (jsTrim f))) then
    Except.error "Crux Extractor: All form factors must be non-empty strings"
  else
    Except.ok
      { urls := c.urls.map jsTrim,
        spreadsheetId := jsTrim c.spreadsheetId,
        apiKey := jsTrim c.apiKey,
        formFactor := c.formFactor.map jsTrim,
        cruxUrl := c.cruxUrl ++ jsTrim c.apiKey,
        sheetTabName := c.sheetTabName }

/-- The same configuration with the four validated inputs already trimmed,
used to state that trimming at construction is canonical. -/
def trimConfig (c : ExtractorConfig) : ExtractorConfig :=
  { c with urls := c.urls.map jsTrim,
           spreadsheetId := jsTrim c.spreadsheetId,
           apiKey := jsTrim c.apiKey,
           formFactor := c.formFactor.map jsTrim }

/-! ## Concrete sample data used to instantiate the theorems -/

/-- A sample absolute https URL. -/
def demoUrl : String := "https://example.com"

/-- A sample request descriptor. -/
def demoDesc : RequestDescriptor := ⟨demoUrl, "PHONE"⟩

/-- A sample fully populated metric. -/
def demoMetric : Metric :=
  { histogram := some [⟨some (Cell.num 90)⟩, ⟨some (Cell.num 5)⟩, ⟨some (Cell.num 5)⟩],
    percentiles := some ⟨some (Cell.num 1200)⟩ }

/-- A sample payload with a populated LCP metric and the other three metrics
absent. -/
def demoPayload : Payload :=
  { record := some
      { key := some { formFactor := some "PHONE", url := some demoUrl },
        metrics := some
          { largest_contentful_paint := some demoMetric,
            first_input_delay := none,
            cumulative_layout_shift := none,
            first_contentful_paint := none } } }

/-- A sample payload whose record.key and record.metrics are present but all
four metrics are absent. -/
def demoEmptyMetricsPayload : Payload :=
  { record := some
      { key := some { formFactor := none, url := some demoUrl },
        metrics := some ⟨none, none, none, none⟩ } }

/-- The row normalizeData produces from demoPayload. -/
def demoRow : Row :=
  [Cell.str "01-01-2024", Cell.str "PHONE", Cell.str demoUrl,
   Cell.num 90, Cell.num 5, Cell.num 5, Cell.num 1200,
   dash, dash, dash, dash, dash, dash, dash, dash, dash, dash, dash, dash]

/-- The row normalizeData produces from demoEmptyMetricsPayload. -/
def demoEmptyMetricsRow : Row :=
  [Cell.str "01-01-2024", Cell.str "AGGREGATED", Cell.str demoUrl,
   dash, dash, dash, dash, dash, dash, dash, dash,
   dash, dash, dash, dash, dash, dash, dash, dash]

/-- The environment of one run: the platform URL validator, the fetch
oracle answering the i-th UrlFetchApp.fetch call, the two formatted
timestamps, and the generated execution id. -/
structure Env where
  isValidUrl : String → Bool
  fetch : Nat → FetchResult
  dateStamp : String
  timeStamp : String
  executionId : String

/-- The execution summary returned by a successful run. -/
structure Summary where
  executionId : String
  totalRequests : Nat
  successfulResponses : Nat
  rowsWritten : Nat
  failedRequests : Nat
deriving DecidableEq, Repr

/-- run: the five-stage pipeline.  Each stage error propagates unchanged;
every abort taken after fetchData populated the execution records flushes
them to the history tab before propagating (the source catch block, with
the flush failure swallowed inside logExecutionHistory). -/
def run (e : CruxExtractor) (env : Env) (w : World) :
    Except String Summary × World :=
  match buildRequestUrls env.isValidUrl e.urls e.formFactor with
  | Except.error msg => (Except.error msg, w)
  | Except.ok requests =>
      if requests.isEmpty then (Except.error "No valid requests to process", w)
      else
        match fetchData env.fetch requests with
        | Except.error msg => (Except.error msg, w)
        | Except.ok out =>
            if out.payloads.isEmpty then
              (Except.error "No successful API responses received",
               logExecutionHistory env.executionId env.timeStamp w out.records)
            else
              match normalizeData env.dateStamp out.payloads out.records with
              | Except.error msg =>
                  (Except.error msg,
                   logExecutionHistory env.executionId env.timeStamp w out.records)
              | Except.ok norm =>
                  if norm.1.isEmpty then
                    (Except.error "All responses failed normalization",
                     logExecutionHistory env.executionId env.timeStamp w norm.2)
                  else
                    match addToSpreadsheet w norm.1 with
                    | Except.error msg =>
                        (Except.error msg,
                         logExecutionHistory env.executionId env.timeStamp w norm.2)
                    | Except.ok w2 =>
                        (Except.ok
                          { executionId := env.executionId,
                            totalRequests := requests.length,
                            successfulResponses := out.payloads.length,
                            rowsWritten := norm.1.length,
                            failedRequests := requests.length - out.payloads.length },
                         logExecutionHistory env.executionId env.timeStamp w2 norm.2)

/-- A sample environment in which every fetch succeeds with demoPayload. -/
def demoEnv : Env :=
  { isValidUrl := fun _ => true,
    fetch := fun _ => FetchResult.response 200 "body" (Except.ok demoPayload),
    dateStamp := "01-01-2024",
    timeStamp := "01-01-2024 00:00:00",
    executionId := "exec_demo" }

/-- A sample environment in which every fetch yields an HTTP 500. -/
def demoFailEnv : Env :=
  { demoEnv with fetch := fun _ => FetchResult.response 500 "server error" (Except.error "not parsed") }

/-- A sample constructed extractor with one URL and one form factor. -/
def demoExtractor : CruxExtractor :=
  { urls := [demoUrl], spreadsheetId := "sid", apiKey := "key",
    formFactor := ["PHONE"],
    cruxUrl := "https://chromeuxreport.googleapis.com/v1/records:queryRecord?alt=json&key=key",
    sheetTabName := "cruxData" }

/-- A sample world with neither tab created yet and no service failures. -/
def demoWorld : World :=
  { dataSheet := none, historySheet := none,
    dataWriteFails := false, historyWriteFails := false }

/-- The summary the sample successful run returns. -/
def demoSummary : Summary :=
  { executionId := "exec_demo", totalRequests := 1, successfulResponses := 1,
    rowsWritten := 1, failedRequests := 0 }

/-- A sample SUCCESS execution record for the demo descriptor. -/
def demoRec0 : ExecutionRec :=
  { url := demoUrl, formFactor := "PHONE", status := "SUCCESS",
    responseCode := some 200, errorMessage := "-", normalized := "NO" }

/-- A sample execution record list holding one SUCCESS record for the demo
descriptor. -/
def demoRecords : List ExecutionRec := [demoRec0]

/-- The demo record after the normalizer marks it. -/
def demoRecYes : ExecutionRec := { demoRec0 with normalized := "YES" }

/-- Two sample request descriptors, used to exhibit the fetch trace. -/
def demoTwoReqs : List RequestDescriptor :=
  [⟨demoUrl, "PHONE"⟩, ⟨demoUrl, "DESKTOP"⟩]

/-- A sample configuration whose inputs carry surrounding whitespace. -/
def demoPaddedConfig : ExtractorConfig :=
  { urls := ["  https://example.com  "], spreadsheetId := " sid ",
    apiKey := "\tkey\n", formFactor := [" PHONE "],
    cruxUrl := "base?key=", sheetTabName := "cruxData" }

/-- The extractor the constructor builds from demoPaddedConfig. -/
def demoTrimmedExtractor : CruxExtractor :=
  { urls := ["https://example.com"], spreadsheetId := "sid", apiKey := "key",
    formFactor := ["PHONE"], cruxUrl := "base?key=key", sheetTabName := "cruxData" }

/-! ## Planner lemmas -/

theorem planFactor_foldl (u : String) (ffs : List String) (acc : List RequestDescriptor) :
    ffs.foldl (planFactor u) acc
      = acc ++ (ffs.filter (fun f => validFormFactors.contains f)).map
          (fun f => (⟨u, f⟩ : RequestDescriptor)) := by
  induction ffs generalizing acc with
  | nil => simp
  | cons f fs ih =>
      by_cases h : f ∈ validFormFactors
      · rw [List.foldl_cons]
        have hp : planFactor u acc f = acc ++ [(⟨u, f⟩ : RequestDescriptor)] := by
          simp [planFactor, h]
        rw [hp, ih]
        simp [List.filter_cons, h]
      · rw [List.foldl_cons]
        have hp : planFactor u acc f = acc := by simp [planFactor, h]
        rw [hp, ih]
        simp [List.filter_cons, h]

theorem planUrl_foldl (v : String → Bool) (ffs : List String) (urls : List String)
    (acc : List RequestDescriptor) :
    urls.foldl (planUrl v ffs) acc = acc ++ plannerSpec v urls ffs := by
  induction urls generalizing acc with
  | nil => simp [plannerSpec]
  | cons u us ih =>
      by_cases h : v u
      · rw [List.foldl_cons]
        have hp : planUrl v ffs acc u
            = acc ++ (ffs.filter (fun f => validFormFactors.contains f)).map
                (fun f => (⟨u, f⟩ : RequestDescriptor)) := by
          simp [planUrl, h, planFactor_foldl]
        rw [hp, ih]
        simp [plannerSpec, List.filter_cons, h, List.append_assoc]
      · rw [List.foldl_cons]
        have hp : planUrl v ffs acc u = acc := by simp [planUrl, h]
        rw [hp, ih]
        simp [plannerSpec, List.filter_cons, h]

/-- C4: for every list of candidate URLs and form factor tokens, the planner
produces exactly the cross product of (url, formFactor) pairs in URL-major
order, skipping every URL the validator rejects and every form factor token
outside the accepted set, and it throws exactly when the resulting list is
empty. -/
theorem c4_planner_cross_product (isValidUrl : String → Bool)
    (urls formFactor : List String) :
    buildRequestUrls isValidUrl urls formFactor =
      if plannerSpec isValidUrl urls formFactor = [] then
        Except.error "No valid URL/form factor combinations to process"
      else Except.ok (plannerSpec isValidUrl urls formFactor) := by
  unfold buildRequestUrls
  have h : urls.foldl (planUrl isValidUrl formFactor) []
      = plannerSpec isValidUrl urls formFactor := by
    simpa using planUrl_foldl isValidUrl formFactor urls []
  rw [h]
  rcases e : plannerSpec isValidUrl urls formFactor with _ | ⟨d, ds⟩ <;> simp

/-! ## Fetcher lemmas -/

theorem processRequest_snd_eq_none_iff (fr : FetchResult) (d : RequestDescriptor) :
    (processRequest fr d).2 = none ↔ fetchSuccess fr = false := by
  cases fr with
  | fetchError m => simp [processRequest, fetchSuccess]
  | response code text parsed =>
      cases parsed with
      | error m =>
          by_cases h : code = HTTP_STATUS_OK <;>
            simp [processRequest, fetchSuccess, h]
      | ok p =>
          by_cases h : code = HTTP_STATUS_OK <;>
            simp [processRequest, fetchSuccess, h]

theorem processRequest_status (fr : FetchResult) (d : RequestDescriptor) :
    (processRequest fr d).1.status = if fetchSuccess fr then "SUCCESS" else "FAILED" := by
  cases fr with
  | fetchError m => simp [processRequest, fetchSuccess]
  | response code text parsed =>
      cases parsed with
      | error m =>
          by_cases h : code = HTTP_STATUS_OK <;>
            simp [processRequest, fetchSuccess, h]
      | ok p =>
          by_cases h : code = HTTP_STATUS_OK <;>
            simp [processRequest, fetchSuccess, h]

theorem processRequest_url_ff (fr : FetchResult) (d : RequestDescriptor) :
    (processRequest fr d).1.url = d.url ∧ (processRequest fr d).1.formFactor = d.formFactor := by
  cases fr with
  | fetchError m => exact ⟨rfl, rfl⟩
  | response code text parsed =>
      cases parsed with
      | error m =>
          by_cases h : code = HTTP_STATUS_OK <;> simp [processRequest, h]
      | ok p =>
          by_cases h : code = HTTP_STATUS_OK <;> simp [processRequest, h]

theorem fetchLoop_records_length (f : Nat → FetchResult) (i : Nat)
    (ds : List RequestDescriptor) :
    (fetchLoop f i ds).records.length = ds.length := by
  induction ds generalizing i with
  | nil => rfl
  | cons d ds ih => simp [fetchLoop, ih]

theorem fetchLoop_payloads_length_le (f : Nat → FetchResult) (i : Nat)
    (ds : List RequestDescriptor) :
    (fetchLoop f i ds).payloads.length ≤ ds.length := by
  induction ds generalizing i with
  | nil => simp [fetchLoop]
  | cons d ds ih =>
      have h1 := ih (i + 1)
      cases hp : (processRequest (f i) d).2 with
      | none =>
          simp only [fetchLoop, hp, Option.toList_none, List.nil_append, List.length_cons]
          omega
      | some p =>
          simp only [fetchLoop, hp, Option.toList_some, List.singleton_append,
            List.length_cons]
          omega

theorem fetchLoop_payloads_eq_nil_iff (f : Nat → FetchResult) (i : Nat)
    (ds : List RequestDescriptor) :
    (fetchLoop f i ds).payloads = []
      ↔ ∀ j, j < ds.length → fetchSuccess (f (i + j)) = false := by
  induction ds generalizing i with
  | nil => simp [fetchLoop]
  | cons d ds ih =>
      have hrec : (fetchLoop f i (d :: ds)).payloads
          = (processRequest (f i) d).2.toList ++ (fetchLoop f (i + 1) ds).payloads := rfl
      rw [hrec, List.append_eq_nil]
      constructor
      · rintro ⟨h0, hrest⟩ j hj
        cases j with
        | zero =>
            have hz : (processRequest (f i) d).2 = none := by
              cases hzz : (processRequest (f i) d).2 with
              | none => rfl
              | some p => rw [hzz] at h0; simp at h0
            simpa using (processRequest_snd_eq_none_iff (f i) d).mp hz
        | succ j =>
            have hlt : j < ds.length := by simp at hj; omega
            have hres := (ih (i + 1)).mp hrest j hlt
            have harith : i + 1 + j = i + (j + 1) := by omega
            rwa [harith] at hres
      · intro h
        constructor
        · have h0 := h 0 (by simp)
          have hz : (processRequest (f i) d).2 = none :=
            (processRequest_snd_eq_none_iff (f i) d).mpr (by simpa using h0)
          rw [hz]; rfl
        · apply (ih (i + 1)).mpr
          intro j hj
          have hres := h (j + 1) (by simp; omega)
          have harith : i + 1 + j = i + (j + 1) := by omega
          rwa [harith]

theorem fetchLoop_records_getElem (f : Nat → FetchResult) (i : Nat)
    (ds : List RequestDescriptor) (j : Nat) :
    (fetchLoop f i ds).records[j]?
      = (ds[j]?).map (fun d => (processRequest (f (i + j)) d).1) := by
  induction ds generalizing i j with
  | nil => simp [fetchLoop]
  | cons d ds ih =>
      cases j with
      | zero => simp [fetchLoop]
      | succ j =>
          simp only [fetchLoop, List.getElem?_cons_succ]
          rw [ih (i + 1) j]
          have harith : i + 1 + j = i + (j + 1) := by omega
          rw [harith]

theorem fetchLoop_trace (f : Nat → FetchResult) (i : Nat)
    (ds : List RequestDescriptor) :
    (fetchLoop f i ds).trace
      = List.intersperse (Event.sleep SLEEP_DURATION_MS) (ds.map Event.request) := by
  induction ds generalizing i with
  | nil => rfl
  | cons d ds ih =>
      have hcons : (fetchLoop f i (d :: ds)).trace
          = Event.request d ::
              ((if ds.isEmpty then [] else [Event.sleep SLEEP_DURATION_MS])
                ++ (fetchLoop f (i + 1) ds).trace) := rfl
      rw [hcons, ih (i + 1)]
      cases ds with
      | nil => rfl
      | cons d2 ds2 => simp [List.intersperse]

theorem countP_intersperse_request (ds : List RequestDescriptor) (n : Nat) :
    (List.intersperse (Event.sleep n) (ds.map Event.request)).countP isRequestEvent
        = ds.length
    ∧ (List.intersperse (Event.sleep n) (ds.map Event.request)).countP isSleepEvent
        = ds.length - 1 := by
  induction ds with
  | nil => simp
  | cons d ds ih =>
      cases ds with
      | nil => simp [List.intersperse, List.countP_cons, isRequestEvent, isSleepEvent]
      | cons d2 ds2 =>
          obtain ⟨h1, h2⟩ := ih
          simp only [List.map_cons, List.intersperse, List.countP_cons,
            isRequestEvent, isSleepEvent, List.map, List.length_cons] at h1 h2 ⊢
          simp at h1 h2 ⊢
          omega

theorem fetchData_ok_of_ne_nil (f : Nat → FetchResult) {ds : List RequestDescriptor}
    (h : ds ≠ []) : fetchData f ds = Except.ok (fetchLoop f 0 ds) := by
  have he : ds.isEmpty = false := by
    cases ds with
    | nil => exact absurd rfl h
    | cons a l => rfl
  simp [fetchData, he]

theorem fetchData_ok_out (f : Nat → FetchResult) (ds : List RequestDescriptor)
    (out : FetchOut) (h : fetchData f ds = Except.ok out) : out = fetchLoop f 0 ds := by
  unfold fetchData at h
  split at h
  · cases h
  · injection h with h2
    exact h2.symm

/-- C5: after the fetch stage there is exactly one execution record per
request descriptor, none dropped and none duplicated: the record list has
the same length as the descriptor list, the j-th record is exactly the one
built for the j-th descriptor from the j-th fetch outcome, and it carries
that descriptor url and form factor. -/
theorem c5_one_record_per_descriptor (f : Nat → FetchResult)
    (ds : List RequestDescriptor) (out : FetchOut)
    (h : fetchData f ds = Except.ok out) :
    out.records.length = ds.length
    ∧ (∀ j, j < ds.length →
        out.records[j]? = (ds[j]?).map (fun d => (processRequest (f j) d).1))
    ∧ (∀ j, j < ds.length →
        (out.records[j]?).map (fun r => (r.url, r.formFactor))
          = (ds[j]?).map (fun d => (d.url, d.formFactor))) := by
  have hout := fetchData_ok_out f ds out h
  subst hout
  refine ⟨fetchLoop_records_length f 0 ds, fun j hj => ?_, fun j hj => ?_⟩
  · simpa using fetchLoop_records_getElem f 0 ds j
  · have hg := fetchLoop_records_getElem f 0 ds j
    rw [hg]
    cases hd : ds[j]? with
    | none => rfl
    | some d =>
        simp only [hd, Option.map_some, Nat.zero_add]
        simp
        exact processRequest_url_ff (f j) d

theorem c5_witness :
    (fetchLoop demoEnv.fetch 0 [demoDesc]).records.length = 1 :=
  (c5_one_record_per_descriptor demoEnv.fetch [demoDesc]
    (fetchLoop demoEnv.fetch 0 [demoDesc]) rfl).1

/-- C9: the fetcher issues exactly one request per descriptor, strictly
sequentially, and inserts the fixed 400ms delay after every request except
the last: the event trace is exactly the descriptor list interspersed with
sleep events, so a batch of n descriptors shows n request events and n-1
sleep events, each sleep between two consecutive requests. -/
theorem c9_sequential_delay (f : Nat → FetchResult) (ds : List RequestDescriptor)
    (out : FetchOut) (h : fetchData f ds = Except.ok out) :
    out.trace = List.intersperse (Event.sleep SLEEP_DURATION_MS) (ds.map Event.request)
    ∧ out.trace.countP isRequestEvent = ds.length
    ∧ out.trace.countP isSleepEvent = ds.length - 1 := by
  have hout := fetchData_ok_out f ds out h
  subst hout
  rw [fetchLoop_trace f 0 ds]
  exact ⟨rfl, (countP_intersperse_request ds SLEEP_DURATION_MS).1,
    (countP_intersperse_request ds SLEEP_DURATION_MS).2⟩

theorem c9_witness :
    (fetchLoop demoEnv.fetch 0 demoTwoReqs).trace
      = [Event.request ⟨demoUrl, "PHONE"⟩, Event.sleep 400,
         Event.request ⟨demoUrl, "DESKTOP"⟩] := by
  have h := c9_sequential_delay demoEnv.fetch demoTwoReqs
    (fetchLoop demoEnv.fetch 0 demoTwoReqs) rfl
  rw [h.1]
  rfl

/-! ## Normalizer lemmas -/

theorem extractMetric_length (m : Option Metric) : (extractMetric m).length = 4 := by
  cases m with
  | none => rfl
  | some mm => rfl

theorem acceptPayload_eq (ts : String) (key : RecordKey) (ms : Metrics) :
    acceptPayload ts ⟨some ⟨some key, some ms⟩⟩
      = some ([Cell.str ts, Cell.str (keyFormFactor key.formFactor), urlCell key.url]
            ++ extractMetric ms.largest_contentful_paint
            ++ extractMetric ms.first_input_delay
            ++ extractMetric ms.cumulative_layout_shift
            ++ extractMetric ms.first_contentful_paint,
          key.url, keyFormFactor key.formFactor) := rfl

/-- C2: every row the normalizer produces has exactly 19 cells, and each
cell whose source field is absent holds the sentinel, independently: a
missing metric object yields four sentinels, a missing histogram array (or
one present but empty) yields three sentinel densities, a missing bucket
entry or a bucket entry without density yields a sentinel in that slot, a
missing percentiles object or missing p75 field yields a sentinel in the
percentile slot, and a payload with record.key and record.metrics present
but all four metrics absent yields a row whose 16 metric cells are all the
sentinel. -/
theorem c2_row_shape :
    (∀ ts p row u ff, acceptPayload ts p = some (row, u, ff) → row.length = 19)
    ∧ extractMetric none = [dash, dash, dash, dash]
    ∧ (∀ m : Metric, m.histogram = none ∨ m.histogram = some [] →
        (extractMetric (some m)).take 3 = [dash, dash, dash])
    ∧ (∀ m : Metric, ∀ i, i < 3 → (m.histogram.getD [])[i]? = none →
        (extractMetric (some m))[i]? = some dash)
    ∧ (∀ m : Metric, ∀ i e, i < 3 → (m.histogram.getD [])[i]? = some e →
        e.density = none → (extractMetric (some m))[i]? = some dash)
    ∧ (∀ m : Metric, m.percentiles = none ∨ m.percentiles = some ⟨none⟩ →
        (extractMetric (some m))[3]? = some dash)
    ∧ (∀ ts key row u ff,
        acceptPayload ts ⟨some ⟨some key, some ⟨none, none, none, none⟩⟩⟩
            = some (row, u, ff) →
        row.drop 3 = List.replicate 16 dash) := by
  refine ⟨?_, rfl, ?_, ?_, ?_, ?_, ?_⟩
  · intro ts p row u ff h
    rcases p with ⟨_ | ⟨key0, ms0⟩⟩
    · cases h
    · rcases key0 with _ | key
      · cases h
      · rcases ms0 with _ | ms
        · cases h
        · rw [acceptPayload_eq] at h
          injection h with h1
          injection h1 with hrow h2
          subst hrow
          simp [extractMetric_length]
  · rintro m (h | h) <;> simp [extractMetric, h, histCell]
  · intro m i hi h
    interval_cases i <;> simp [extractMetric, histCell, h]
  · intro m i e hi h hd
    interval_cases i <;> simp [extractMetric, histCell, h, hd]
  · rintro m (h | h) <;> simp [extractMetric, h]
  · intro ts key row u ff h
    rw [acceptPayload_eq] at h
    injection h with h1
    injection h1 with hrow h2
    subst hrow
    rfl

theorem c2_witness :
    demoRow.length = 19 ∧ demoEmptyMetricsRow.drop 3 = List.replicate 16 dash :=
  ⟨c2_row_shape.1 "01-01-2024" demoPayload demoRow (some demoUrl) "PHONE" rfl,
   c2_row_shape.2.2.2.2.2.2 "01-01-2024" ⟨none, some demoUrl⟩ demoEmptyMetricsRow
     (some demoUrl) "AGGREGATED" rfl⟩

/-! ## Record-marking lemmas (normalizeData, second half) -/

theorem markNormalized_length (records : List ExecutionRec) (u : Option String)
    (ff : String) : (markNormalized records u ff).length = records.length := by
  induction records with
  | nil => rfl
  | cons r rs ih =>
      by_cases h : recMatches r u ff <;> simp [markNormalized, h, ih]

theorem recMatches_set_yes (r : ExecutionRec) (u : Option String) (ff : String) :
    recMatches { r with normalized := "YES" } u ff = recMatches r u ff := rfl

theorem markNormalized_exists_yes (records : List ExecutionRec) (u : Option String)
    (ff : String) (h : ∃ r ∈ records, recMatches r u ff = true) :
    ∃ r ∈ markNormalized records u ff, recMatches r u ff = true ∧ r.normalized = "YES" := by
  induction records with
  | nil => simp at h
  | cons r rs ih =>
      by_cases hr : recMatches r u ff
      · refine ⟨{ r with normalized := "YES" }, ?_, ?_, rfl⟩
        · simp [markNormalized, hr]
        · rw [recMatches_set_yes]
          exact hr
      · have h2 : ∃ x ∈ rs, recMatches x u ff = true := by
          obtain ⟨x, hx, hm⟩ := h
          rcases List.mem_cons.mp hx with rfl | hx2
          · exact absurd hm hr
          · exact ⟨x, hx2, hm⟩
        obtain ⟨x, hx, hm, hy⟩ := ih h2
        refine ⟨x, ?_, hm, hy⟩
        simp [markNormalized, hr]
        exact Or.inr hx

theorem markNormalized_keeps_yes (records : List ExecutionRec) (mu : Option String)
    (mff : String) (u : Option String) (ff : String)
    (h : ∃ r ∈ records, recMatches r u ff = true ∧ r.normalized = "YES") :
    ∃ r ∈ markNormalized records mu mff, recMatches r u ff = true ∧ r.normalized = "YES" := by
  induction records with
  | nil => simp at h
  | cons r rs ih =>
      obtain ⟨x, hx, hm, hy⟩ := h
      by_cases hr : recMatches r mu mff
      · rcases List.mem_cons.mp hx with rfl | hx2
        · refine ⟨{ x with normalized := "YES" }, ?_, ?_, rfl⟩
          · simp [markNormalized, hr]
          · rw [recMatches_set_yes]
            exact hm
        · refine ⟨x, ?_, hm, hy⟩
          simp [markNormalized, hr]
          exact Or.inr hx2
      · rcases List.mem_cons.mp hx with rfl | hx2
        · refine ⟨x, ?_, hm, hy⟩
          simp [markNormalized, hr]
        · obtain ⟨x2, hx3, hm2, hy2⟩ := ih ⟨x, hx2, hm, hy⟩
          refine ⟨x2, ?_, hm2, hy2⟩
          simp [markNormalized, hr]
          exact Or.inr hx3

theorem markNormalized_keeps_matches (records : List ExecutionRec) (mu : Option String)
    (mff : String) (u : Option String) (ff : String)
    (h : ∃ r ∈ records, recMatches r u ff = true) :
    ∃ r ∈ markNormalized records mu mff, recMatches r u ff = true := by
  induction records with
  | nil => simp at h
  | cons r rs ih =>
      obtain ⟨x, hx, hm⟩ := h
      by_cases hr : recMatches r mu mff
      · rcases List.mem_cons.mp hx with rfl | hx2
        · refine ⟨{ x with normalized := "YES" }, ?_, ?_⟩
          · simp [markNormalized, hr]
          · rw [recMatches_set_yes]
            exact hm
        · refine ⟨x, ?_, hm⟩
          simp [markNormalized, hr]
          exact Or.inr hx2
      · rcases List.mem_cons.mp hx with rfl | hx2
        · refine ⟨x, ?_, hm⟩
          simp [markNormalized, hr]
        · obtain ⟨x2, hx3, hm2⟩ := ih ⟨x, hx2, hm⟩
          refine ⟨x2, ?_, hm2⟩
          simp [markNormalized, hr]
          exact Or.inr hx3

theorem normStep_snd_keeps_yes (ts : String) (acc : List Row × List ExecutionRec)
    (p : Payload) (u : Option String) (ff : String)
    (h : ∃ r ∈ acc.2, recMatches r u ff = true ∧ r.normalized = "YES") :
    ∃ r ∈ (normStep ts acc p).2, recMatches r u ff = true ∧ r.normalized = "YES" := by
  unfold normStep
  cases hap : acceptPayload ts p with
  | none => exact h
  | some x =>
      obtain ⟨row, u2, ff2⟩ := x
      exact markNormalized_keeps_yes acc.2 u2 ff2 u ff h

theorem normStep_snd_keeps_matches (ts : String) (acc : List Row × List ExecutionRec)
    (p : Payload) (u : Option String) (ff : String)
    (h : ∃ r ∈ acc.2, recMatches r u ff = true) :
    ∃ r ∈ (normStep ts acc p).2, recMatches r u ff = true := by
  unfold normStep
  cases hap : acceptPayload ts p with
  | none => exact h
  | some x =>
      obtain ⟨row, u2, ff2⟩ := x
      exact markNormalized_keeps_matches acc.2 u2 ff2 u ff h

theorem normFold_keeps_yes (ts : String) (ps : List Payload)
    (acc : List Row × List ExecutionRec) (u : Option String) (ff : String)
    (h : ∃ r ∈ acc.2, recMatches r u ff = true ∧ r.normalized = "YES") :
    ∃ r ∈ (ps.foldl (normStep ts) acc).2, recMatches r u ff = true ∧ r.normalized = "YES" := by
  induction ps generalizing acc with
  | nil => exact h
  | cons p ps ih =>
      rw [List.foldl_cons]
      exact ih (normStep ts acc p) (normStep_snd_keeps_yes ts acc p u ff h)

theorem normFold_marks (ts : String) (ps : List Payload)
    (acc : List Row × List ExecutionRec) (p : Payload) (row : Row)
    (u : Option String) (ff : String) (hp : p ∈ ps)
    (ha : acceptPayload ts p = some (row, u, ff))
    (h : ∃ r ∈ acc.2, recMatches r u ff = true) :
    ∃ r ∈ (ps.foldl (normStep ts) acc).2, recMatches r u ff = true ∧ r.normalized = "YES" := by
  induction ps generalizing acc with
  | nil => cases hp
  | cons q qs ih =>
      rcases List.mem_cons.mp hp with heq | hq
      · rw [List.foldl_cons]
        apply normFold_keeps_yes
        have ha2 : acceptPayload ts q = some (row, u, ff) := heq ▸ ha
        have hstep : (normStep ts acc q).2 = markNormalized acc.2 u ff := by
          unfold normStep
          rw [ha2]
        rw [hstep]
        exact markNormalized_exists_yes acc.2 u ff h
      · rw [List.foldl_cons]
        exact ih (normStep ts acc q) hq (normStep_snd_keeps_matches ts acc q u ff h)

theorem normalizeData_ok_out (ts : String) (ps : List Payload)
    (recs : List ExecutionRec) (out : List Row × List ExecutionRec)
    (h : normalizeData ts ps recs = Except.ok out) :
    out = ps.foldl (normStep ts) ([], recs) := by
  unfold normalizeData at h
  split at h
  · cases h
  · split at h
    · cases h
    · injection h with h2
      exact h2.symm

theorem normalizeData_ok_rows_nonempty (ts : String) (ps : List Payload)
    (recs : List ExecutionRec) (out : List Row × List ExecutionRec)
    (h : normalizeData ts ps recs = Except.ok out) : out.1.isEmpty = false := by
  unfold normalizeData at h
  split at h
  · cases h
  · split at h
    next hg => cases h
    next hg =>
      injection h with h2
      rw [h2] at hg
      simpa using hg

theorem normStep_rows_le (ts : String) (acc : List Row × List ExecutionRec)
    (p : Payload) : (normStep ts acc p).1.length ≤ acc.1.length + 1 := by
  unfold normStep
  cases hap : acceptPayload ts p with
  | none => simp
  | some x =>
      obtain ⟨row, u, ff⟩ := x
      simp

theorem normFold_rows_le (ts : String) (ps : List Payload)
    (acc : List Row × List ExecutionRec) :
    (ps.foldl (normStep ts) acc).1.length ≤ acc.1.length + ps.length := by
  induction ps generalizing acc with
  | nil => simp
  | cons p ps ih =>
      rw [List.foldl_cons]
      have h1 := ih (normStep ts acc p)
      have h2 := normStep_rows_le ts acc p
      simp only [List.length_cons]
      omega

theorem normFold_records_length (ts : String) (ps : List Payload)
    (acc : List Row × List ExecutionRec) :
    (ps.foldl (normStep ts) acc).2.length = acc.2.length := by
  induction ps generalizing acc with
  | nil => rfl
  | cons p ps ih =>
      rw [List.foldl_cons, ih (normStep ts acc p)]
      unfold normStep
      cases hap : acceptPayload ts p with
      | none => rfl
      | some x =>
          obtain ⟨row, u, ff⟩ := x
          simp [markNormalized_length]

/-- C6: for every payload the normalizer turns into a row, if some
execution record matches that row url and form factor with status SUCCESS,
then by the end of the normalization stage a matching SUCCESS record has
its normalized field set to YES (a payload whose record.key lacks a form
factor matches under the literal AGGREGATED, as keyFormFactor encodes). -/
theorem c6_marks_matching_record (ts : String) (payloads : List Payload)
    (records : List ExecutionRec) (p : Payload) (row : Row) (u : Option String)
    (ff : String) (out : List Row × List ExecutionRec)
    (hp : p ∈ payloads) (ha : acceptPayload ts p = some (row, u, ff))
    (hn : normalizeData ts payloads records = Except.ok out)
    (hex : ∃ r ∈ records, recMatches r u ff = true) :
    ∃ r ∈ out.2, recMatches r u ff = true ∧ r.normalized = "YES" := by
  have ho := normalizeData_ok_out ts payloads records out hn
  subst ho
  exact normFold_marks ts payloads ([], records) p row u ff hp ha hex

theorem c6_witness :
    ([demoRecYes].any
      (fun r => recMatches r (some demoUrl) "PHONE" && r.normalized == "YES")) = true := by
  obtain ⟨r, hr, hm, hy⟩ :=
    c6_marks_matching_record "01-01-2024" [demoPayload] demoRecords demoPayload demoRow
      (some demoUrl) "PHONE" ([demoRow], [demoRecYes]) (List.mem_singleton.mpr rfl) rfl rfl
      ⟨demoRec0, List.mem_singleton.mpr rfl, by decide⟩
  refine List.any_eq_true.mpr ⟨r, hr, ?_⟩
  simp [hm, hy]

/-! ## Sheet and world lemmas -/

theorem setRows_append (s : List Row) (rows : List Row) :
    setRows s (s.length + 1) rows = s ++ rows := by
  unfold setRows
  have h1 : s.length + 1 - 1 = s.length := rfl
  rw [h1]
  simp [List.take_length, Nat.sub_self,
    List.drop_eq_nil_of_le (Nat.le_add_right s.length rows.length)]

theorem addToSpreadsheet_error_msg (w : World) (rows : List Row) (msg : String)
    (h : addToSpreadsheet w rows = Except.error msg) :
    msg = "No normalized data to write. Call normalizeData() first."
      ∨ msg = "addToSpreadsheet failed" := by
  unfold addToSpreadsheet at h
  split at h
  · injection h with h2
    exact Or.inl h2.symm
  · split at h
    · injection h with h2
      exact Or.inr h2.symm
    · cases h

theorem normalizeData_error_msg (ts : String) (ps : List Payload)
    (recs : List ExecutionRec) (msg : String)
    (h : normalizeData ts ps recs = Except.error msg) :
    msg = "No responses to normalize. Call fetchData() first."
      ∨ msg = "All responses failed normalization" := by
  unfold normalizeData at h
  split at h
  · injection h with h2
    exact Or.inl h2.symm
  · split at h
    · injection h with h2
      exact Or.inr h2.symm
    · cases h

theorem buildRequestUrls_ok_ne_nil {v : String → Bool} {urls ffs : List String}
    {requests : List RequestDescriptor}
    (h : buildRequestUrls v urls ffs = Except.ok requests) : requests ≠ [] := by
  unfold buildRequestUrls at h
  split at h
  · cases h
  next hg =>
    injection h with h2
    intro hnil
    apply hg
    rw [h2, hnil]
    rfl

theorem isEmpty_false_of_ne_nil {α : Type} {l : List α} (h : l ≠ []) :
    l.isEmpty = false := by
  cases l with
  | nil => exact absurd rfl h
  | cons a t => rfl

theorem logExecutionHistory_of_fail (eid ts : String) (w : World)
    (records : List ExecutionRec) (hw : w.historyWriteFails = true) :
    logExecutionHistory eid ts w records = w := by
  unfold logExecutionHistory
  by_cases hre : records.isEmpty = true <;> simp [hre, hw]

theorem logExecutionHistory_sheet (eid ts : String) (w : World)
    (records : List ExecutionRec) (hne : records ≠ [])
    (hw : w.historyWriteFails = false) :
    (logExecutionHistory eid ts w records).historySheet
      = some ((match w.historySheet with
          | none => setRows [] 1 [historyHeaders]
          | some s => s)
          ++ records.map (auditRow eid ts)) := by
  have hre := isEmpty_false_of_ne_nil hne
  unfold logExecutionHistory
  simp only [hre, Bool.false_eq_true, if_false, hw]
  rw [setRows_append]

theorem addToSpreadsheet_hist_flag (w : World) (b : Bool) (rows : List Row) :
    addToSpreadsheet { w with historyWriteFails := b } rows
      = Except.map (fun w2 => { w2 with historyWriteFails := b })
          (addToSpreadsheet w rows) := by
  unfold addToSpreadsheet
  by_cases h1 : rows.isEmpty = true <;> by_cases h2 : w.dataWriteFails = true <;>
    simp [h1, h2, Except.map]

theorem addToSpreadsheet_ok_fields (w : World) (rows : List Row) (w2 : World)
    (h : addToSpreadsheet w rows = Except.ok w2) :
    w2.historySheet = w.historySheet ∧ w2.historyWriteFails = w.historyWriteFails := by
  unfold addToSpreadsheet at h
  split at h
  · cases h
  · split at h
    · cases h
    · injection h with h2
      rw [← h2]
      exact ⟨rfl, rfl⟩

/-! ## Run branch lemmas -/

theorem run_eq_plan_error (e : CruxExtractor) (env : Env) (w : World) (msg : String)
    (hb : buildRequestUrls env.isValidUrl e.urls e.formFactor = Except.error msg) :
    run e env w = (Except.error msg, w) := by
  unfold run
  rw [hb]

theorem run_eq_noSuccess (e : CruxExtractor) (env : Env) (w : World)
    (requests : List RequestDescriptor)
    (hb : buildRequestUrls env.isValidUrl e.urls e.formFactor = Except.ok requests)
    (hpe : (fetchLoop env.fetch 0 requests).payloads.isEmpty = true) :
    run e env w = (Except.error "No successful API responses received",
      logExecutionHistory env.executionId env.timeStamp w
        (fetchLoop env.fetch 0 requests).records) := by
  have hne := buildRequestUrls_ok_ne_nil hb
  have hre := isEmpty_false_of_ne_nil hne
  have hf := fetchData_ok_of_ne_nil env.fetch hne
  unfold run
  rw [hb]
  simp only [hre, Bool.false_eq_true, if_false, hf, hpe, if_true]

theorem run_eq_norm_error (e : CruxExtractor) (env : Env) (w : World)
    (requests : List RequestDescriptor) (msg : String)
    (hb : buildRequestUrls env.isValidUrl e.urls e.formFactor = Except.ok requests)
    (hpe : (fetchLoop env.fetch 0 requests).payloads.isEmpty = false)
    (hn : normalizeData env.dateStamp (fetchLoop env.fetch 0 requests).payloads
            (fetchLoop env.fetch 0 requests).records = Except.error msg) :
    run e env w = (Except.error msg,
      logExecutionHistory env.executionId env.timeStamp w
        (fetchLoop env.fetch 0 requests).records) := by
  have hne := buildRequestUrls_ok_ne_nil hb
  have hre := isEmpty_false_of_ne_nil hne
  have hf := fetchData_ok_of_ne_nil env.fetch hne
  unfold run
  rw [hb]
  simp only [hre, Bool.false_eq_true, if_false, hf, hpe, hn]

theorem run_eq_sheet_error (e : CruxExtractor) (env : Env) (w : World)
    (requests : List RequestDescriptor) (norm : List Row × List ExecutionRec)
    (msg : String)
    (hb : buildRequestUrls env.isValidUrl e.urls e.formFactor = Except.ok requests)
    (hpe : (fetchLoop env.fetch 0 requests).payloads.isEmpty = false)
    (hn : normalizeData env.dateStamp (fetchLoop env.fetch 0 requests).payloads
            (fetchLoop env.fetch 0 requests).records = Except.ok norm)
    (ha : addToSpreadsheet w norm.1 = Except.error msg) :
    run e env w = (Except.error msg,
      logExecutionHistory env.executionId env.timeStamp w norm.2) := by
  have hne := buildRequestUrls_ok_ne_nil hb
  have hre := isEmpty_false_of_ne_nil hne
  have hf := fetchData_ok_of_ne_nil env.fetch hne
  have hnne := normalizeData_ok_rows_nonempty _ _ _ _ hn
  unfold run
  rw [hb]
  simp only [hre, Bool.false_eq_true, if_false, hf, hpe, hn, hnne, ha]

theorem run_eq_success (e : CruxExtractor) (env : Env) (w : World)
    (requests : List RequestDescriptor) (norm : List Row × List ExecutionRec)
    (w2 : World)
    (hb : buildRequestUrls env.isValidUrl e.urls e.formFactor = Except.ok requests)
    (hpe : (fetchLoop env.fetch 0 requests).payloads.isEmpty = false)
    (hn : normalizeData env.dateStamp (fetchLoop env.fetch 0 requests).payloads
            (fetchLoop env.fetch 0 requests).records = Except.ok norm)
    (ha : addToSpreadsheet w norm.1 = Except.ok w2) :
    run e env w = (Except.ok
      { executionId := env.executionId,
        totalRequests := requests.length,
        successfulResponses := (fetchLoop env.fetch 0 requests).payloads.length,
        rowsWritten := norm.1.length,
        failedRequests :=
          requests.length - (fetchLoop env.fetch 0 requests).payloads.length },
      logExecutionHistory env.executionId env.timeStamp w2 norm.2) := by
  have hne := buildRequestUrls_ok_ne_nil hb
  have hre := isEmpty_false_of_ne_nil hne
  have hf := fetchData_ok_of_ne_nil env.fetch hne
  have hnne := normalizeData_ok_rows_nonempty _ _ _ _ hn
  unfold run
  rw [hb]
  simp only [hre, Bool.false_eq_true, if_false, hf, hpe, hn, hnne, ha]

/-! ## Orchestrator claims -/

/-- C1: every run that completes and returns an execution summary satisfies
rowsWritten ≤ successfulResponses ≤ totalRequests, where the three fields
are the number of request descriptors built, the number of successfully
parsed payloads, and the number of normalized rows. -/
theorem c1_summary_bounds (e : CruxExtractor) (env : Env) (w : World) (s : Summary)
    (h : (run e env w).1 = Except.ok s) :
    s.rowsWritten ≤ s.successfulResponses ∧ s.successfulResponses ≤ s.totalRequests := by
  cases hb : buildRequestUrls env.isValidUrl e.urls e.formFactor with
  | error msg =>
      rw [run_eq_plan_error e env w msg hb] at h
      cases h
  | ok requests =>
      cases hpe : (fetchLoop env.fetch 0 requests).payloads.isEmpty with
      | true =>
          rw [run_eq_noSuccess e env w requests hb hpe] at h
          cases h
      | false =>
          cases hn : normalizeData env.dateStamp
              (fetchLoop env.fetch 0 requests).payloads
              (fetchLoop env.fetch 0 requests).records with
          | error msg =>
              rw [run_eq_norm_error e env w requests msg hb hpe hn] at h
              cases h
          | ok norm =>
              cases ha : addToSpreadsheet w norm.1 with
              | error msg =>
                  rw [run_eq_sheet_error e env w requests norm msg hb hpe hn ha] at h
                  cases h
              | ok w2 =>
                  rw [run_eq_success e env w requests norm w2 hb hpe hn ha] at h
                  injection h with h2
                  rw [← h2]
                  constructor
                  · have h3 := normalizeData_ok_out _ _ _ _ hn
                    have h4 := normFold_rows_le env.dateStamp
                      (fetchLoop env.fetch 0 requests).payloads
                      ([], (fetchLoop env.fetch 0 requests).records)
                    rw [← h3] at h4
                    simpa using h4
                  · exact fetchLoop_payloads_length_le env.fetch 0 requests

theorem c1_witness :
    demoSummary.rowsWritten ≤ demoSummary.successfulResponses
      ∧ demoSummary.successfulResponses ≤ demoSummary.totalRequests :=
  c1_summary_bounds demoExtractor demoEnv demoWorld demoSummary rfl

/-- C3: once the planner produced the request descriptors, the run fails
with the no-successful-responses error exactly when every descriptor fetch
failed to yield a parsed payload; individual failures never raise — the
fetch stage still returns normally, with one execution record per
descriptor whose status is FAILED for every failed outcome and SUCCESS
otherwise. -/
theorem c3_no_success_iff (e : CruxExtractor) (env : Env) (w : World)
    (requests : List RequestDescriptor)
    (hb : buildRequestUrls env.isValidUrl e.urls e.formFactor = Except.ok requests) :
    (((run e env w).1 = Except.error "No successful API responses received")
        ↔ (∀ j, j < requests.length → fetchSuccess (env.fetch j) = false))
    ∧ fetchData env.fetch requests = Except.ok (fetchLoop env.fetch 0 requests)
    ∧ (fetchLoop env.fetch 0 requests).records.length = requests.length
    ∧ (∀ j, j < requests.length →
        ((fetchLoop env.fetch 0 requests).records[j]?).map ExecutionRec.status
          = some (if fetchSuccess (env.fetch j) then "SUCCESS" else "FAILED")) := by
  have hne := buildRequestUrls_ok_ne_nil hb
  refine ⟨⟨?_, ?_⟩, fetchData_ok_of_ne_nil env.fetch hne,
    fetchLoop_records_length env.fetch 0 requests, ?_⟩
  · intro h
    cases hpe : (fetchLoop env.fetch 0 requests).payloads.isEmpty with
    | true =>
        have hnil : (fetchLoop env.fetch 0 requests).payloads = [] := by
          cases hc : (fetchLoop env.fetch 0 requests).payloads with
          | nil => rfl
          | cons a t => rw [hc] at hpe; cases hpe
        have hall := (fetchLoop_payloads_eq_nil_iff env.fetch 0 requests).mp hnil
        intro j hj
        simpa using hall j hj
    | false =>
        exfalso
        cases hn : normalizeData env.dateStamp
            (fetchLoop env.fetch 0 requests).payloads
            (fetchLoop env.fetch 0 requests).records with
        | error msg =>
            rw [run_eq_norm_error e env w requests msg hb hpe hn] at h
            injection h with h2
            rcases normalizeData_error_msg _ _ _ _ hn with h3 | h3 <;>
              rw [h3] at h2 <;> exact absurd h2 (by decide)
        | ok norm =>
            cases ha : addToSpreadsheet w norm.1 with
            | error msg =>
                rw [run_eq_sheet_error e env w requests norm msg hb hpe hn ha] at h
                injection h with h2
                rcases addToSpreadsheet_error_msg _ _ _ ha with h3 | h3 <;>
                  rw [h3] at h2 <;> exact absurd h2 (by decide)
            | ok w2 =>
                rw [run_eq_success e env w requests norm w2 hb hpe hn ha] at h
                cases h
  · intro hall
    have hnil : (fetchLoop env.fetch 0 requests).payloads = [] := by
      apply (fetchLoop_payloads_eq_nil_iff env.fetch 0 requests).mpr
      intro j hj
      simpa using hall j hj
    have hpe : (fetchLoop env.fetch 0 requests).payloads.isEmpty = true := by
      rw [hnil]
      rfl
    rw [run_eq_noSuccess e env w requests hb hpe]
  · intro j hj
    rw [fetchLoop_records_getElem env.fetch 0 requests j]
    cases hd : requests[j]? with
    | none =>
        rw [List.getElem?_eq_getElem hj] at hd
        cases hd
    | some d => simp [processRequest_status]

theorem c3_witness :
    (run demoExtractor demoFailEnv demoWorld).1
      = Except.error "No successful API responses received" := by
  have h := c3_no_success_iff demoExtractor demoFailEnv demoWorld
    [⟨demoUrl, "PHONE"⟩] rfl
  exact h.1.mpr (by decide)

theorem run_fst_hist_flag (e : CruxExtractor) (env : Env) (w : World) (b : Bool) :
    (run e env { w with historyWriteFails := b }).1 = (run e env w).1 := by
  unfold run
  cases hb : buildRequestUrls env.isValidUrl e.urls e.formFactor with
  | error msg => rfl
  | ok requests =>
      cases hre : requests.isEmpty with
      | true => simp [hre]
      | false =>
          simp only [hre, Bool.false_eq_true, if_false]
          cases hf : fetchData env.fetch requests with
          | error msg => rfl
          | ok out =>
              cases hpe : out.payloads.isEmpty with
              | true => simp [hpe]
              | false =>
                  simp only [hpe, Bool.false_eq_true, if_false]
                  cases hn : normalizeData env.dateStamp out.payloads out.records with
                  | error msg => rfl
                  | ok norm =>
                      cases hnn : norm.1.isEmpty with
                      | true => simp [hnn]
                      | false =>
                          simp only [hnn, Bool.false_eq_true, if_false]
                          rw [addToSpreadsheet_hist_flag]
                          cases ha : addToSpreadsheet w norm.1 with
                          | error msg => rfl
                          | ok w2 => rfl

theorem run_hist_sheet_of_fail (e : CruxExtractor) (env : Env) (w : World)
    (hw : w.historyWriteFails = true) :
    (run e env w).2.historySheet = w.historySheet := by
  unfold run
  cases hb : buildRequestUrls env.isValidUrl e.urls e.formFactor with
  | error msg => rfl
  | ok requests =>
      cases hre : requests.isEmpty with
      | true => simp [hre]
      | false =>
          simp only [hre, Bool.false_eq_true, if_false]
          cases hf : fetchData env.fetch requests with
          | error msg => rfl
          | ok out =>
              cases hpe : out.payloads.isEmpty with
              | true => simp [hpe, logExecutionHistory_of_fail _ _ _ _ hw]
              | false =>
                  simp only [hpe, Bool.false_eq_true, if_false]
                  cases hn : normalizeData env.dateStamp out.payloads out.records with
                  | error msg => simp [logExecutionHistory_of_fail _ _ _ _ hw]
                  | ok norm =>
                      cases hnn : norm.1.isEmpty with
                      | true => simp [hnn, logExecutionHistory_of_fail _ _ _ _ hw]
                      | false =>
                          simp only [hnn, Bool.false_eq_true, if_false]
                          cases ha : addToSpreadsheet w norm.1 with
                          | error msg =>
                              simp [logExecutionHistory_of_fail _ _ _ _ hw]
                          | ok w2 =>
                              obtain ⟨hh, hhf⟩ := addToSpreadsheet_ok_fields w norm.1 w2 ha
                              have hw2 : w2.historyWriteFails = true := by
                                rw [hhf]
                                exact hw
                              show (logExecutionHistory env.executionId env.timeStamp
                                  w2 norm.2).historySheet = w.historySheet
                              rw [logExecutionHistory_of_fail _ _ _ _ hw2]
                              exact hh

/-- C7: when the pipeline aborts at any stage after the fetcher accumulated
execution records, the orchestrator flushes them to the audit sink and
propagates the original error unchanged: the propagated result never
depends on whether the audit flush fails, a failing audit flush is
swallowed and leaves the history tab untouched, and an abort with a working
audit sink appends exactly one history row per request descriptor. -/
theorem c7_audit_flush (e : CruxExtractor) (env : Env) (w : World) :
    ((run e env { w with historyWriteFails := true }).1 = (run e env w).1)
    ∧ ((run e env { w with historyWriteFails := true }).2.historySheet
        = w.historySheet)
    ∧ (∀ msg requests,
        buildRequestUrls env.isValidUrl e.urls e.formFactor = Except.ok requests →
        (run e env w).1 = Except.error msg →
        w.historyWriteFails = false →
        ∃ rows : List Row, rows.length = requests.length ∧
          (run e env w).2.historySheet
            = some ((match w.historySheet with
                | none => setRows [] 1 [historyHeaders]
                | some s => s) ++ rows)) := by
  refine ⟨run_fst_hist_flag e env w true,
    run_hist_sheet_of_fail e env { w with historyWriteFails := true } rfl, ?_⟩
  intro msg requests hb herr hw
  have hne := buildRequestUrls_ok_ne_nil hb
  have hrne : (fetchLoop env.fetch 0 requests).records ≠ [] := by
    intro hnil
    apply hne
    have := fetchLoop_records_length env.fetch 0 requests
    rw [hnil] at this
    cases requests with
    | nil => rfl
    | cons a t => cases this
  cases hpe : (fetchLoop env.fetch 0 requests).payloads.isEmpty with
  | true =>
      rw [run_eq_noSuccess e env w requests hb hpe]
      refine ⟨(fetchLoop env.fetch 0 requests).records.map
        (auditRow env.executionId env.timeStamp), ?_, ?_⟩
      · rw [List.length_map]
        exact fetchLoop_records_length env.fetch 0 requests
      · exact logExecutionHistory_sheet env.executionId env.timeStamp w
          (fetchLoop env.fetch 0 requests).records hrne hw
  | false =>
      cases hn : normalizeData env.dateStamp
          (fetchLoop env.fetch 0 requests).payloads
          (fetchLoop env.fetch 0 requests).records with
      | error m =>
          rw [run_eq_norm_error e env w requests m hb hpe hn]
          refine ⟨(fetchLoop env.fetch 0 requests).records.map
            (auditRow env.executionId env.timeStamp), ?_, ?_⟩
          · rw [List.length_map]
            exact fetchLoop_records_length env.fetch 0 requests
          · exact logExecutionHistory_sheet env.executionId env.timeStamp w
              (fetchLoop env.fetch 0 requests).records hrne hw
      | ok norm =>
          have hlen2 : norm.2.length = requests.length := by
            have h3 := normalizeData_ok_out _ _ _ _ hn
            rw [h3, normFold_records_length]
            exact fetchLoop_records_length env.fetch 0 requests
          have hnne2 : norm.2 ≠ [] := by
            intro hnil
            apply hne
            rw [hnil] at hlen2
            cases requests with
            | nil => rfl
            | cons a t => cases hlen2
          cases ha : addToSpreadsheet w norm.1 with
          | error m =>
              rw [run_eq_sheet_error e env w requests norm m hb hpe hn ha]
              refine ⟨norm.2.map (auditRow env.executionId env.timeStamp), ?_, ?_⟩
              · rw [List.length_map]
                exact hlen2
              · exact logExecutionHistory_sheet env.executionId env.timeStamp w
                  norm.2 hnne2 hw
          | ok w2 =>
              exfalso
              rw [run_eq_success e env w requests norm w2 hb hpe hn ha] at herr
              cases herr

theorem c7_witness :
    ((run demoExtractor demoFailEnv demoWorld).2.historySheet).map List.length
      = some 2 := by
  obtain ⟨rows, hlen, hsheet⟩ :=
    (c7_audit_flush demoExtractor demoFailEnv demoWorld).2.2
      "No successful API responses received" [⟨demoUrl, "PHONE"⟩] rfl rfl rfl
  rw [hsheet]
  simp [hlen, setRows, demoWorld]

/-! ## Sink writer claim -/

/-- C8: the sink writer appends the normalized rows immediately below the
current last populated row of the target tab, preserving their order, and
never overwrites: against the same non-empty table a second run writes its
batch strictly after the prior last row, and every previously written row
is unchanged (the written table restricted to the old range is the old
table). -/
theorem c8_append_only (w : World) (s : List Row) (rows1 rows2 : List Row)
    (h1 : rows1 ≠ []) (h2 : rows2 ≠ []) (hw : w.dataWriteFails = false)
    (hs : w.dataSheet = some s) :
    ∃ w1 w2 : World,
      addToSpreadsheet w rows1 = Except.ok w1
      ∧ addToSpreadsheet w1 rows2 = Except.ok w2
      ∧ w1.dataSheet = some (s ++ rows1)
      ∧ w2.dataSheet = some (s ++ rows1 ++ rows2)
      ∧ (s ++ rows1 ++ rows2).take s.length = s
      ∧ (s ++ rows1 ++ rows2).take (s ++ rows1).length = s ++ rows1 := by
  have he1 := isEmpty_false_of_ne_nil h1
  have he2 := isEmpty_false_of_ne_nil h2
  refine ⟨{ w with dataSheet := some (s ++ rows1) },
    { w with dataSheet := some (s ++ rows1 ++ rows2) }, ?_, ?_, rfl, rfl, ?_, ?_⟩
  · unfold addToSpreadsheet
    simp only [he1, Bool.false_eq_true, if_false, hw, hs]
    rw [setRows_append]
  · unfold addToSpreadsheet
    simp only [he2, Bool.false_eq_true, if_false, hw]
    rw [setRows_append]
  · rw [List.append_assoc, List.take_left]
  · rw [List.take_left]

theorem c8_witness :
    ((addToSpreadsheet { demoWorld with dataSheet := some [dataHeaders] }
        [demoRow]).map (fun w1 => w1.dataSheet))
      = Except.ok (some ([dataHeaders] ++ [demoRow])) := by
  obtain ⟨w1, w2, hw1, hw2, hd1, hd2, ht1, ht2⟩ :=
    c8_append_only { demoWorld with dataSheet := some [dataHeaders] } [dataHeaders]
      [demoRow] [demoEmptyMetricsRow] (by simp) (by simp) rfl rfl
  rw [hw1]
  simp [Except.map, hd1]

/-! ## Constructor claim -/

theorem dropWhile_head_not {α : Type} {p : α → Bool} {l : List α} {b : α}
    {t : List α} (h : l.dropWhile p = b :: t) : p b = false := by
  induction l with
  | nil => cases h
  | cons a l ih =>
      rw [List.dropWhile_cons] at h
      by_cases hp : p a
      · rw [if_pos hp] at h
        exact ih h
      · rw [if_neg hp] at h
        injection h with h1 h2
        rw [← h1]
        simpa using hp

theorem dropWhile_dropWhile {α : Type} (p : α → Bool) (l : List α) :
    (l.dropWhile p).dropWhile p = l.dropWhile p := by
  cases hd : l.dropWhile p with
  | nil => rfl
  | cons b t =>
      have hb := dropWhile_head_not hd
      rw [List.dropWhile_cons, if_neg (by simp [hb])]

theorem dropWhile_append_single {α : Type} (p : α → Bool) (a : α)
    (ha : p a = false) (l : List α) :
    (l ++ [a]).dropWhile p = l.dropWhile p ++ [a] := by
  induction l with
  | nil => simp [List.dropWhile_cons, ha]
  | cons x xs ih =>
      rw [List.cons_append, List.dropWhile_cons, List.dropWhile_cons]
      by_cases hx : p x
      · rw [if_pos hx, if_pos hx]
        exact ih
      · rw [if_neg hx, if_neg hx, List.cons_append]

theorem trimL_trimL (l : List Char) : trimL (trimL l) = trimL l :=
  dropWhile_dropWhile Char.isWhitespace l

theorem trimR_trimR (l : List Char) : trimR (trimR l) = trimR l := by
  unfold trimR
  rw [List.reverse_reverse, dropWhile_dropWhile]

theorem trimR_cons (a : Char) (ha : a.isWhitespace = false) (l : List Char) :
    trimR (a :: l) = a :: trimR l := by
  unfold trimR
  rw [List.reverse_cons, dropWhile_append_single Char.isWhitespace a ha l.reverse,
    List.reverse_append]
  rfl

theorem trimL_trimR_trimL (l : List Char) :
    trimL (trimR (trimL l)) = trimR (trimL l) := by
  cases hd : trimL l with
  | nil => rfl
  | cons b t =>
      have hb : b.isWhitespace = false := dropWhile_head_not hd
      rw [trimR_cons b hb t]
      unfold trimL
      rw [List.dropWhile_cons, if_neg (by simp [hb])]

theorem jsTrim_idem (s : String) : jsTrim (jsTrim s) = jsTrim s := by
  unfold jsTrim
  have hdata : (String.mk (trimR (trimL s.data))).data = trimR (trimL s.data) := rfl
  rw [hdata, trimL_trimR_trimL, trimR_trimR]

theorem map_isEmpty {α β : Type} (f : α → β) (l : List α) :
    (l.map f).isEmpty = l.isEmpty := by
  cases l <;> rfl

theorem mkCruxExtractor_trimConfig (c : ExtractorConfig) :
    mkCruxExtractor (trimConfig c) = mkCruxExtractor c := by
  unfold mkCruxExtractor trimConfig
  simp only [map_isEmpty, List.all_map, List.map_map, Function.comp_def, jsTrim_idem]

/-- C10: every configuration the constructor accepts is stored with leading
and trailing whitespace removed from the urls, the spreadsheet id, the API
key and the form factors, the credential-bearing endpoint is the base URL
with the trimmed key appended, and building from the already-trimmed
configuration yields the identical extractor, so the two behave
identically. -/
theorem c10_constructor_trims (c : ExtractorConfig) (e : CruxExtractor)
    (h : mkCruxExtractor c = Except.ok e) :
    e.urls = c.urls.map jsTrim
    ∧ e.spreadsheetId = jsTrim c.spreadsheetId
    ∧ e.apiKey = jsTrim c.apiKey
    ∧ e.formFactor = c.formFactor.map jsTrim
    ∧ e.cruxUrl = c.cruxUrl ++ jsTrim c.apiKey
    ∧ e.sheetTabName = c.sheetTabName
    ∧ mkCruxExtractor (trimConfig c) = Except.ok e := by
  have h0 := h
  unfold mkCruxExtractor at h
  split at h
  · cases h
  · split at h
    · cases h
    · split at h
      · cases h
      · split at h
        · cases h
        · split at h
          · cases h
          · split at h
            · cases h
            · injection h with he
              exact ⟨by rw [← he], by rw [← he], by rw [← he], by rw [← he],
                by rw [← he], by rw [← he], (mkCruxExtractor_trimConfig c).trans h0⟩

theorem c10_witness :
    mkCruxExtractor (trimConfig demoPaddedConfig) = Except.ok demoTrimmedExtractor :=
  (c10_constructor_trims demoPaddedConfig demoTrimmedExtractor rfl).2.2.2.2.2.2
